import Mathlib

/-! Event processor of the feature-flag client (`events.go`).

A shallow embedding of `src/events.go`: the event model, the bounded event
queue (`sendEvent`), the batch flush (`flush`) and shutdown (`close`).

Conventions of the embedding.

* The processor is a record of the fields of the Go struct that carry data.
  The mutex `mu` is not a field: every function below is the body of one call
  executed without interleaving, and every Go function releases the mutex
  before it returns or can fail, so the mutex is free at every call boundary.
  The places where the Go code locks and unlocks are marked in comments.
  Runs in which calls of several goroutines interleave are built from the same
  pieces, as a sequence of atomic steps (`Action`), with `flush` cut where it
  releases the mutex.
* The channel `closer` is represented by whether it has been closed.
* Library calls whose result the code cannot determine (`json.Marshal`,
  `http.NewRequest`, `client.Do`) are read from an environment `Env`.
* What a call does to the outside world is recorded as a list of `Effect`s,
  in the order in which they happen.
* A Go run-time panic is an `Outcome`, next to the normal return.
-/

namespace ldclient

/-- Bytes of a payload, as produced by `json.Marshal`. -/
abbrev Bytes := List Nat

/-- Go struct `BaseEvent`; `User` is the user type of the package, declared
outside `events.go` and taken as a parameter. -/
structure BaseEvent (User : Type) where
  CreationDate : Nat
  Key : String
  Kind : String
  User : User
  deriving DecidableEq, Repr

/-- Go struct `FeatureRequestEvent`; `Any` stands for `interface{}`. -/
structure FeatureRequestEvent (User Any : Type) where
  base : BaseEvent User
  Value : Any
  deriving DecidableEq, Repr

/-- Go struct `CustomEvent`. -/
structure CustomEvent (User Any : Type) where
  base : BaseEvent User
  Data : Any
  deriving DecidableEq, Repr

/-- Go constant `FEATURE_REQUEST_EVENT`. -/
def FEATURE_REQUEST_EVENT : String := "feature"

/-- Go constant `CUSTOM_EVENT`. -/
def CUSTOM_EVENT : String := "custom"

/-- Go interface `Event`, with the two implementations of `events.go`. -/
inductive Event (User Any : Type) where
  | feature (e : FeatureRequestEvent User Any)
  | custom (e : CustomEvent User Any)
  deriving DecidableEq, Repr

/-- Method `GetBase` of both implementations. -/
def Event.GetBase {User Any : Type} : Event User Any → BaseEvent User
  | .feature e => e.base
  | .custom e => e.base

/-- Method `GetKind` of both implementations. -/
def Event.GetKind {User Any : Type} : Event User Any → String
  | .feature e => e.base.Kind
  | .custom e => e.base.Kind

/-- Modelled from the spec: the type `Config` is declared outside `events.go`;
the spec lists its fields as the base URI, the flush interval, the capacity and
a logger sink. `Capacity` is a Go `int`, so it may be negative. The logger is a
sink that is always present: what is printed to it appears as `Effect.log`. -/
structure Config where
  BaseUri : String
  Capacity : Int
  FlushInterval : Nat
  deriving DecidableEq, Repr

/-- Go struct `eventProcessor`: `queue`, `apiKey`, `config`, and `closer`
(`true` once the channel has been closed). -/
structure eventProcessor (User Any : Type) where
  queue : List (Event User Any)
  apiKey : String
  config : Config
  closer : Bool
  deriving DecidableEq, Repr

/-- Text of the error `sendEvent` returns when the queue is full. -/
def capacityError : String :=
  "Exceeded event queue capacity. Increase capacity to avoid dropping events."

/-- Go `newEventProcessor`: an empty queue and an open `closer`. The goroutine
it starts only ever calls `flush`, on each tick until `closer` is closed. -/
def newEventProcessor {User Any : Type} (apiKey : String) (config : Config) :
    eventProcessor User Any :=
  { queue := [], apiKey := apiKey, config := config, closer := false }

/-- Go `sendEvent`: the processor after the call and the returned error
(`none` is Go's `nil`). -/
def sendEvent {User Any : Type} (ep : eventProcessor User Any) (evt : Event User Any) :
    eventProcessor User Any × Option String :=
  -- ep.mu.Lock(); defer ep.mu.Unlock()
  if (ep.queue.length : Int) ≥ ep.config.Capacity then
    (ep, some capacityError)
  else
    ({ ep with queue := ep.queue ++ [evt] }, none)

/-- Go `http.Header`: each key with its values, in the order they were added. -/
abbrev Header := List (String × List String)

/-- Go `Header.Add`: appends `value` to the values of `key`. The keys used in
`events.go` are already in canonical form, so no canonicalisation is applied. -/
def Header.Add : Header → String → String → Header
  | [], key, value => [(key, [value])]
  | (k, vs) :: rest, key, value =>
    if k = key then (k, vs ++ [value]) :: rest
    else (k, vs) :: Header.Add rest key value

/-- The fields of Go `http.Request` that `flush` sets: the method, the URL as
the string given to `http.NewRequest`, the header and the body. -/
structure Request where
  Method : String
  URL : String
  Header : Header
  Body : Bytes
  deriving DecidableEq, Repr

/-- The part of Go `http.Response` that `flush` reads: `Body`, which may be
`nil`. -/
structure Response where
  Body : Option Bytes
  deriving DecidableEq, Repr

/-- What `client.Do` returns: a response with a `nil` error, a `nil` response
with an error, or (when a redirect policy fails) both. -/
inductive DoResult where
  | response (resp : Response)
  | failure (err : String)
  | both (resp : Response) (err : String)
  deriving DecidableEq, Repr

/-- First component of the pair `client.Do` returns. -/
def DoResult.resp : DoResult → Option Response
  | .response r => some r
  | .failure _ => none
  | .both r _ => some r

/-- Second component of the pair `client.Do` returns. -/
def DoResult.err : DoResult → Option String
  | .response _ => none
  | .failure e => some e
  | .both _ e => some e

/-- What `flush` takes from outside `events.go`: the package constant
`Version`, the result of `json.Marshal` on a batch, whether `http.NewRequest`
rejects a method and URL, and what `client.Do` answers to a request. -/
structure Env (User Any : Type) where
  Version : String
  jsonMarshal : List (Event User Any) → Except String Bytes
  newRequestErr : String → String → Option String
  clientDo : Request → DoResult

/-- Go `http.NewRequest`: either `(nil, err)`, or a request with the given
method, URL and body and an empty header, and a `nil` error. -/
def httpNewRequest {User Any : Type} (env : Env User Any) (method url : String)
    (body : Bytes) : Option Request × Option String :=
  match env.newRequestErr method url with
  | some err => (none, some err)
  | none => (some { Method := method, URL := url, Header := [], Body := body }, none)

/-- What a call does that is visible outside the processor. -/
inductive Effect where
  | log (msg : String)
  | request (req : Request)
  | drain (body : Bytes)
  deriving DecidableEq, Repr

/-- How a call ends: it returns, or it panics. -/
inductive Outcome where
  | returned
  | panicked (msg : String)
  deriving DecidableEq, Repr

/-- Result of a call of `flush` or `close`. -/
structure Result (User Any : Type) where
  ep : eventProcessor User Any
  trace : List Effect
  outcome : Outcome
  deriving DecidableEq, Repr

/-- Go's run-time error for a field access through a `nil` pointer. -/
def nilDereference : String :=
  "invalid memory address or nil pointer dereference"

/-- Go's run-time error for closing a channel twice. -/
def closeOfClosedChannel : String := "close of closed channel"

/-- The requests issued in a trace, in order. -/
def requestsOf : List Effect → List Request
  | [] => []
  | .request r :: rest => r :: requestsOf rest
  | _ :: rest => requestsOf rest

/-- The messages logged in a trace, in order. -/
def logsOf : List Effect → List String
  | [] => []
  | .log m :: rest => m :: logsOf rest
  | _ :: rest => logsOf rest

/-- Lines 80-88 of `flush`, the part under the mutex: `none` when the queue is
empty (the function returns), otherwise the queue read into `events`. -/
def flushRead {User Any : Type} (ep : eventProcessor User Any) :
    Option (List (Event User Any)) :=
  if ep.queue.length = 0 then none else some ep.queue

/-- Line 90 of `flush`: `ep.queue = make([]Event, 0)`, after the unlock. -/
def flushReset {User Any : Type} (ep : eventProcessor User Any) : eventProcessor User Any :=
  { ep with queue := [] }

/-- Lines 92-117 of `flush`: marshal `events`, build the request, send it and
drain the response. Returns the trace and the outcome. -/
def flushSend {User Any : Type} (env : Env User Any) (ep : eventProcessor User Any)
    (events : List (Event User Any)) : List Effect × Outcome :=
  -- payload, marshalErr := json.Marshal(events)
  let marshalled := env.jsonMarshal events
  let payload : Bytes := match marshalled with
    | .ok b => b
    | .error _ => []
  let t1 : List Effect := match marshalled with
    | .ok _ => []
    | .error e => [.log ("Unexpected error marshalling event json: " ++ e)]
  -- req, reqErr := http.NewRequest("POST", ep.config.BaseUri+"/api/events/bulk", ...)
  let built := httpNewRequest env "POST" (ep.config.BaseUri ++ "/api/events/bulk") payload
  let t2 : List Effect := match built.2 with
    | some e => [.log ("Unexpected error while creating event request: " ++ e)]
    | none => []
  match built.1 with
  | none => (t1 ++ t2, .panicked nilDereference)  -- req.Header with req == nil
  | some req0 =>
    let h1 := Header.Add req0.Header "Authorization" ("api_key " ++ ep.apiKey)
    let h2 := Header.Add h1 "Content-Type" "application/json"
    let h3 := Header.Add h2 "User-Agent" ("GoClient/" ++ env.Version)
    let req : Request := { req0 with Header := h3 }
    -- resp, respErr := ep.client.Do(req)
    let answer := env.clientDo req
    let t3 : List Effect := match answer.err with
      | some e => [.request req, .log ("Unexpected error while sending events: " ++ e)]
      | none => [.request req]
    match answer.resp with
    | none => (t1 ++ t2 ++ t3, .panicked nilDereference)  -- resp.Body with resp == nil
    | some resp =>
      match resp.Body with
      | some b => (t1 ++ t2 ++ t3 ++ [.drain b], .returned)
      | none => (t1 ++ t2 ++ t3, .returned)

/-- Go `flush`. -/
def flush {User Any : Type} (env : Env User Any) (ep : eventProcessor User Any) :
    Result User Any :=
  match flushRead ep with
  | none => { ep := ep, trace := [], outcome := .returned }
  | some events =>
    let ep1 := flushReset ep
    let sent := flushSend env ep1 events
    { ep := ep1, trace := sent.1, outcome := sent.2 }

/-- Go `close`: `close(ep.closer)`, which panics on a closed channel, then
`ep.flush()`. -/
def close {User Any : Type} (env : Env User Any) (ep : eventProcessor User Any) :
    Result User Any :=
  if ep.closer then
    { ep := ep, trace := [], outcome := .panicked closeOfClosedChannel }
  else
    flush env { ep with closer := true }

/-- One call on a processor; `flush` and `close` come with the environment
they run in. -/
inductive Call (User Any : Type) where
  | sendEvent (evt : Event User Any)
  | flush (env : Env User Any)
  | close (env : Env User Any)

/-- The processor after one call. -/
def Call.apply {User Any : Type} (ep : eventProcessor User Any) :
    Call User Any → eventProcessor User Any
  | .sendEvent evt => (ldclient.sendEvent ep evt).1
  | .flush env => (ldclient.flush env ep).ep
  | .close env => (ldclient.close env ep).ep

/-- The processor after a sequence of calls, first call first. -/
def runCalls {User Any : Type} (ep : eventProcessor User Any) (calls : List (Call User Any)) :
    eventProcessor User Any :=
  calls.foldl Call.apply ep

/-- Submits the events with `sendEvent`, first event first: the processor at
the end and the error each call returned. -/
def sendAll {User Any : Type} (ep : eventProcessor User Any) :
    List (Event User Any) → eventProcessor User Any × List (Option String)
  | [] => (ep, [])
  | evt :: rest =>
    let r := sendEvent ep evt
    let rs := sendAll r.1 rest
    (rs.1, r.2 :: rs.2)

/-! Concrete data used to evaluate the definitions -/

/-- A feature event with key `k`, user `u` and value `v`, created at time 0. -/
def sampleEvent (k : String) (u v : Nat) : Event Nat Nat :=
  .feature { base := { CreationDate := 0, Key := k, Kind := FEATURE_REQUEST_EVENT, User := u },
             Value := v }

/-- Event `E1` of the scenarios. -/
def E1 : Event Nat Nat := sampleEvent "e1" 1 10

/-- Event `E2` of the scenarios. -/
def E2 : Event Nat Nat := sampleEvent "e2" 2 20

/-- Event `E3` of the scenarios. -/
def E3 : Event Nat Nat := sampleEvent "e3" 3 30

/-- A configuration with capacity 2. -/
def config2 : Config := { BaseUri := "http://host", Capacity := 2, FlushInterval := 1 }

/-- A toy serialisation: the creation date, user and value of each event. -/
def toyMarshal (es : List (Event Nat Nat)) : Bytes :=
  es.flatMap (fun e => match e with
    | .feature f => [f.base.CreationDate, f.base.User, f.Value]
    | .custom c => [c.base.CreationDate, c.base.User, c.Data])

/-- An environment in which `json.Marshal` and `client.Do` succeed, and
`http.NewRequest` rejects exactly the URLs that start with a colon (no
protocol scheme), as Go's URL parser does. -/
def envOk : Env Nat Nat :=
  { Version := "1.0"
    jsonMarshal := fun es => .ok (toyMarshal es)
    newRequestErr := fun _ url =>
      if url.data.head? = some ':' then some "missing protocol scheme" else none
    clientDo := fun _ => .response { Body := some [] } }

/-- An environment in which `json.Marshal` fails. -/
def envMarshalFails : Env Nat Nat :=
  { envOk with jsonMarshal := fun _ => .error "json: unsupported type" }

/-- An environment in which `client.Do` fails without a response. -/
def envTransportFails : Env Nat Nat :=
  { envOk with clientDo := fun _ => .failure "connection refused" }

/-- A processor with capacity 2 holding `E1` and `E2`. -/
def epFull : eventProcessor Nat Nat :=
  { queue := [E1, E2], apiKey := "key", config := config2, closer := false }

/-- A processor holding `E1` whose base URI has no protocol scheme. -/
def epBadUri : eventProcessor Nat Nat :=
  { queue := [E1], apiKey := "key",
    config := { BaseUri := "://host", Capacity := 2, FlushInterval := 1 }, closer := false }

/-! Event constructors and the clock -/

/-- Go `time.Millisecond`: the number of nanoseconds in a millisecond. -/
def Millisecond : Int := 1000000

/-- Go `toUnixMillis`. The time `t` is given by `t.UnixNano()`, an `int64`.
The division of `time.Duration` values truncates toward zero, and the
conversion to `uint64` wraps modulo `2 ^ 64`. -/
def toUnixMillis (unixNano : Int) : Nat :=
  -- ms := time.Duration(t.UnixNano()) / time.Millisecond
  let ms := Int.tdiv unixNano Millisecond
  -- return uint64(ms)
  (ms % 2 ^ 64).toNat

/-- Go `now`; `clock` is `time.Now().UnixNano()`. -/
def now (clock : Int) : Nat :=
  toUnixMillis clock

/-- Go `newFeatureRequestEvent`, with the reading of the clock as an argument. -/
def newFeatureRequestEvent {User Any : Type} (clock : Int) (key : String) (user : User)
    (value : Any) : FeatureRequestEvent User Any :=
  { base := { CreationDate := now clock, Key := key, User := user,
              Kind := FEATURE_REQUEST_EVENT },
    Value := value }

/-- Go `(evt FeatureRequestEvent) GetBase`. -/
def FeatureRequestEvent.GetBase {User Any : Type} (evt : FeatureRequestEvent User Any) :
    BaseEvent User :=
  evt.base

/-- Go `(evt FeatureRequestEvent) GetKind`. -/
def FeatureRequestEvent.GetKind {User Any : Type} (evt : FeatureRequestEvent User Any) :
    String :=
  evt.base.Kind

/-- Go `newCustomEvent`, with the reading of the clock as an argument. -/
def newCustomEvent {User Any : Type} (clock : Int) (key : String) (user : User)
    (data : Any) : CustomEvent User Any :=
  { base := { CreationDate := now clock, Key := key, User := user, Kind := CUSTOM_EVENT },
    Data := data }

/-- Go `(evt CustomEvent) GetBase`. -/
def CustomEvent.GetBase {User Any : Type} (evt : CustomEvent User Any) : BaseEvent User :=
  evt.base

/-- Go `(evt CustomEvent) GetKind`. -/
def CustomEvent.GetKind {User Any : Type} (evt : CustomEvent User Any) : String :=
  evt.base.Kind

/-! Interleaved runs of `sendEvent` and `flush`

The mutex makes the body of `sendEvent` and lines 80-88 of `flush` atomic with
respect to each other. Line 90 of `flush` runs after the unlock, so a
`sendEvent` of another goroutine can run between line 88 and line 90. -/

/-- State of an interleaved run with one goroutine in `flush` and any number
of goroutines calling `sendEvent`: the processor; the local variable `events`
of a `flush` that has passed the unlock of line 88 and not yet run line 90;
the batches `flush` has gone on to send, oldest first; and the events for which
`sendEvent` returned `nil`, oldest first. -/
structure Interleaved (User Any : Type) where
  ep : eventProcessor User Any
  events : Option (List (Event User Any))
  batches : List (List (Event User Any))
  accepted : List (Event User Any)
  deriving DecidableEq, Repr

/-- One atomic step of an interleaved run. -/
inductive Action (User Any : Type) where
  | sendEvent (evt : Event User Any)
  | flushLocked
  | flushUnlocked
  deriving DecidableEq, Repr

/-- The state after one atomic step. `sendEvent evt` is a whole call of
`sendEvent`. `flushLocked` is lines 80-88 of a call of `flush`: on an empty
queue the call returns, otherwise the queue is read into `events`.
`flushUnlocked` is the rest of that call: line 90 resets the queue and
`events` goes on to be marshalled and sent. A step of `flush` that is not the
next one of the goroutine in `flush` does nothing. -/
def Action.step {User Any : Type} (s : Interleaved User Any) :
    Action User Any → Interleaved User Any
  | .sendEvent evt =>
    let r := ldclient.sendEvent s.ep evt
    match r.2 with
    | none => { s with ep := r.1, accepted := s.accepted ++ [evt] }
    | some _ => { s with ep := r.1 }
  | .flushLocked =>
    match s.events with
    | some _ => s
    | none => { s with events := flushRead s.ep }
  | .flushUnlocked =>
    match s.events with
    | none => s
    | some events =>
      { s with ep := flushReset s.ep, events := none, batches := s.batches ++ [events] }

/-- The state after a schedule of atomic steps, first step first. -/
def runActions {User Any : Type} (s : Interleaved User Any)
    (schedule : List (Action User Any)) : Interleaved User Any :=
  schedule.foldl Action.step s

/-- The start of an interleaved run on a processor: no `flush` under way,
nothing sent, nothing accepted yet. -/
def Interleaved.start {User Any : Type} (ep : eventProcessor User Any) :
    Interleaved User Any :=
  { ep := ep, events := none, batches := [], accepted := [] }

/-! The JSON form of a batch

`flush` hands the queue, a `[]Event`, to `json.Marshal`. What follows is the
part of the documented behaviour of `encoding/json` that the struct
declarations of `events.go` exercise: a slice becomes an array with one element
per entry, in order; a struct becomes an object with one member per field, in
declaration order, under the name in the field's `json` tag; and the fields of
an embedded struct without a tag are members of the outer object, while an
embedded struct with a tag is a nested object under that name. The member
names of the declarations of `events.go` are distinct, so the rule of
`encoding/json` for clashing names is not needed. -/

/-- A JSON document. -/
inductive JSON where
  | null
  | number (n : Int)
  | string (s : String)
  | array (xs : List JSON)
  | object (members : List (String × JSON))

/-- The Go values that occur as fields in `events.go`: a `uint64`, a `string`,
a `User` and an `interface{}`. -/
inductive GoValue (User Any : Type) where
  | uint64 (n : Nat)
  | string (s : String)
  | user (u : User)
  | any (a : Any)

/-- A named field of a struct: its Go name, the name in its `json` tag when it
has one, and its value. -/
structure GoField (User Any : Type) where
  name : String
  tag : Option String
  value : GoValue User Any

/-- A line of a struct declaration: a named field, or an embedded struct with
its type name, its `json` tag when it has one, and its own fields. -/
inductive GoMember (User Any : Type) where
  | field (f : GoField User Any)
  | embedded (typeName : String) (tag : Option String) (fields : List (GoField User Any))

/-- The declaration of `BaseEvent` (lines 27-32) with the values of `b`. -/
def BaseEvent.fields {User Any : Type} (b : BaseEvent User) : List (GoField User Any) :=
  [ { name := "CreationDate", tag := some "creationDate", value := .uint64 b.CreationDate },
    { name := "Key", tag := some "key", value := .string b.Key },
    { name := "Kind", tag := some "kind", value := .string b.Kind },
    { name := "User", tag := some "user", value := .user b.User } ]

/-- The declaration of `FeatureRequestEvent` (lines 34-37) with the values of
`e`: the embedded `BaseEvent`, which has no tag, then `Value`. -/
def FeatureRequestEvent.members {User Any : Type} (e : FeatureRequestEvent User Any) :
    List (GoMember User Any) :=
  [ .embedded "BaseEvent" none (BaseEvent.fields e.base),
    .field { name := "Value", tag := some "value", value := .any e.Value } ]

/-- The declaration of `CustomEvent` (lines 152-155) with the values of `e`:
the embedded `BaseEvent`, which has no tag, then `Data`. -/
def CustomEvent.members {User Any : Type} (e : CustomEvent User Any) :
    List (GoMember User Any) :=
  [ .embedded "BaseEvent" none (BaseEvent.fields e.base),
    .field { name := "Data", tag := some "data", value := .any e.Data } ]

/-- The struct behind an `Event` of the queue. -/
def Event.members {User Any : Type} : Event User Any → List (GoMember User Any)
  | .feature e => FeatureRequestEvent.members e
  | .custom e => CustomEvent.members e

/-- The JSON of a field value; how a `User` and an `interface{}` are written,
and whether that fails, is given by `encUser` and `encAny`. -/
def marshalValue {User Any : Type} (encUser : User → Except String JSON)
    (encAny : Any → Except String JSON) : GoValue User Any → Except String JSON
  | .uint64 n => .ok (.number (n : Int))
  | .string s => .ok (.string s)
  | .user u => encUser u
  | .any a => encAny a

/-- The member name of a field: the name in its tag, else its Go name. -/
def GoField.key {User Any : Type} (f : GoField User Any) : String :=
  match f.tag with
  | some name => name
  | none => f.name

/-- The members written for a list of named fields, in order. -/
def marshalFields {User Any : Type} (encUser : User → Except String JSON)
    (encAny : Any → Except String JSON) :
    List (GoField User Any) → Except String (List (String × JSON))
  | [] => .ok []
  | f :: rest =>
    match marshalValue encUser encAny f.value with
    | .error e => .error e
    | .ok v =>
      match marshalFields encUser encAny rest with
      | .error e => .error e
      | .ok ms => .ok ((f.key, v) :: ms)

/-- The members written for a struct declaration, in order: a named field
gives one member; an embedded struct without a tag gives the members of its
fields; an embedded struct with a tag gives one member holding an object. -/
def marshalMembers {User Any : Type} (encUser : User → Except String JSON)
    (encAny : Any → Except String JSON) :
    List (GoMember User Any) → Except String (List (String × JSON))
  | [] => .ok []
  | m :: rest =>
    let here : Except String (List (String × JSON)) :=
      match m with
      | .field f => marshalFields encUser encAny [f]
      | .embedded _ none fields => marshalFields encUser encAny fields
      | .embedded _ (some name) fields =>
        match marshalFields encUser encAny fields with
        | .error e => .error e
        | .ok ms => .ok [(name, .object ms)]
    match here with
    | .error e => .error e
    | .ok ms =>
      match marshalMembers encUser encAny rest with
      | .error e => .error e
      | .ok more => .ok (ms ++ more)

/-- The JSON object of one event. -/
def marshalEvent {User Any : Type} (encUser : User → Except String JSON)
    (encAny : Any → Except String JSON) (e : Event User Any) : Except String JSON :=
  match marshalMembers encUser encAny e.members with
  | .error err => .error err
  | .ok ms => .ok (.object ms)

/-- The JSON objects of the events of a batch, in order. -/
def marshalEach {User Any : Type} (encUser : User → Except String JSON)
    (encAny : Any → Except String JSON) : List (Event User Any) → Except String (List JSON)
  | [] => .ok []
  | e :: rest =>
    match marshalEvent encUser encAny e with
    | .error err => .error err
    | .ok o =>
      match marshalEach encUser encAny rest with
      | .error err => .error err
      | .ok os => .ok (o :: os)

/-- The JSON document `json.Marshal` produces for a batch: an array. -/
def marshalEvents {User Any : Type} (encUser : User → Except String JSON)
    (encAny : Any → Except String JSON) (es : List (Event User Any)) : Except String JSON :=
  match marshalEach encUser encAny es with
  | .error err => .error err
  | .ok os => .ok (.array os)

/-- The result of `json.Marshal` on a batch, as bytes: the document of
`marshalEvents` written out by `render`. -/
def jsonMarshalWith {User Any : Type} (encUser : User → Except String JSON)
    (encAny : Any → Except String JSON) (render : JSON → Bytes)
    (es : List (Event User Any)) : Except String Bytes :=
  match marshalEvents encUser encAny es with
  | .error err => .error err
  | .ok doc => .ok (render doc)

/-- The name of the payload member of an event: `value` or `data`. -/
def Event.payloadKey {User Any : Type} : Event User Any → String
  | .feature _ => "value"
  | .custom _ => "data"

/-- The payload of an event: `Value` or `Data`. -/
def Event.payload {User Any : Type} : Event User Any → Any
  | .feature e => e.Value
  | .custom e => e.Data

/-- A custom event with key `k`, user `u` and data `d`, created at time 0. -/
def sampleCustom (k : String) (u d : Nat) : Event Nat Nat :=
  .custom { base := { CreationDate := 0, Key := k, Kind := CUSTOM_EVENT, User := u },
            Data := d }

/-- A toy way of writing a document out: the number of elements of an array. -/
def renderCount : JSON → Bytes
  | .array xs => [xs.length]
  | _ => []

/-- An environment whose `json.Marshal` follows `marshalEvents`, with users
and payloads written as numbers; the other library calls are those of
`envOk`. -/
def envJson : Env Nat Nat :=
  { envOk with
    jsonMarshal := jsonMarshalWith (fun u => .ok (.number (u : Int)))
      (fun a => .ok (.number (a : Int))) renderCount }

/-! The bounded queue: `sendEvent` -/

/-- C1: `sendEvent` returns an error exactly when the queue already holds at
least `config.Capacity` events, and in that case the processor, and so the
queue (length, events and order), is the one before the call. -/
theorem sendEvent_error_iff_full {User Any : Type} (ep : eventProcessor User Any)
    (evt : Event User Any) :
    ((sendEvent ep evt).2 ≠ none ↔ (ep.queue.length : Int) ≥ ep.config.Capacity) ∧
    ((ep.queue.length : Int) ≥ ep.config.Capacity →
      (sendEvent ep evt).1 = ep ∧ (sendEvent ep evt).1.queue = ep.queue ∧
      (sendEvent ep evt).2 = some capacityError) := by
  unfold sendEvent
  by_cases h : (ep.queue.length : Int) ≥ ep.config.Capacity
  · simp [h]
  · simp [h]

/-- Witness of C1 on the full processor of the scenario: submitting `E3` fails
and the queue is still `[E1, E2]`. -/
theorem sendEvent_error_iff_full_witness :
    (sendEvent epFull E3).2 ≠ none ∧ (sendEvent epFull E3).1.queue = [E1, E2] :=
  ⟨(sendEvent_error_iff_full epFull E3).1.mpr (by decide),
   ((sendEvent_error_iff_full epFull E3).2 (by decide)).2.1⟩

/-- C2: when the queue holds fewer than `config.Capacity` events, `sendEvent`
returns `nil` and the new queue is the old queue followed by the event; the
other fields are unchanged. -/
theorem sendEvent_appends {User Any : Type} (ep : eventProcessor User Any)
    (evt : Event User Any) (h : (ep.queue.length : Int) < ep.config.Capacity) :
    (sendEvent ep evt).2 = none ∧
    (sendEvent ep evt).1.queue = ep.queue ++ [evt] ∧
    (sendEvent ep evt).1 = { ep with queue := ep.queue ++ [evt] } := by
  unfold sendEvent
  have h2 : ¬ ((ep.queue.length : Int) ≥ ep.config.Capacity) := not_le.mpr h
  simp [h2]

/-- Witness of C2: `E2` submitted to a processor of capacity 2 holding `E1`. -/
theorem sendEvent_appends_witness :
    (sendEvent ({ epFull with queue := [E1] }) E2).2 = none ∧
    (sendEvent ({ epFull with queue := [E1] }) E2).1.queue = [E1] ++ [E2] ∧
    (sendEvent ({ epFull with queue := [E1] }) E2).1 =
      { ({ epFull with queue := [E1] } : eventProcessor Nat Nat) with queue := [E1] ++ [E2] } :=
  sendEvent_appends ({ epFull with queue := [E1] }) E2 (by decide)

/-! Lemmas on `flush` -/

theorem requestsOf_append (a b : List Effect) :
    requestsOf (a ++ b) = requestsOf a ++ requestsOf b := by
  induction a with
  | nil => rfl
  | cons x xs ih => cases x <;> simp [requestsOf, ih]

theorem flush_of_nil {User Any : Type} (env : Env User Any) (ep : eventProcessor User Any)
    (h : ep.queue = []) : flush env ep = { ep := ep, trace := [], outcome := .returned } := by
  simp [flush, flushRead, h]

theorem flush_of_ne {User Any : Type} (env : Env User Any) (ep : eventProcessor User Any)
    (h : ep.queue ≠ []) :
    flush env ep = { ep := flushReset ep, trace := (flushSend env (flushReset ep) ep.queue).1,
                     outcome := (flushSend env (flushReset ep) ep.queue).2 } := by
  simp [flush, flushRead, h]

theorem flush_queue {User Any : Type} (env : Env User Any) (ep : eventProcessor User Any) :
    (flush env ep).ep.queue = [] := by
  by_cases h : ep.queue = []
  · rw [flush_of_nil env ep h]; exact h
  · rw [flush_of_ne env ep h]; rfl

theorem flush_fields {User Any : Type} (env : Env User Any) (ep : eventProcessor User Any) :
    (flush env ep).ep.config = ep.config ∧ (flush env ep).ep.apiKey = ep.apiKey ∧
    (flush env ep).ep.closer = ep.closer := by
  by_cases h : ep.queue = []
  · rw [flush_of_nil env ep h]; exact ⟨rfl, rfl, rfl⟩
  · rw [flush_of_ne env ep h]; exact ⟨rfl, rfl, rfl⟩

theorem flushSend_requests {User Any : Type} (env : Env User Any) (ep : eventProcessor User Any)
    (events : List (Event User Any))
    (h : env.newRequestErr "POST" (ep.config.BaseUri ++ "/api/events/bulk") = none) :
    requestsOf (flushSend env ep events).1 =
      [{ Method := "POST", URL := ep.config.BaseUri ++ "/api/events/bulk",
         Header := [("Authorization", ["api_key " ++ ep.apiKey]),
                    ("Content-Type", ["application/json"]),
                    ("User-Agent", ["GoClient/" ++ env.Version])],
         Body := match env.jsonMarshal events with
           | .ok b => b
           | .error _ => [] }] := by
  simp only [flushSend, httpNewRequest, h]
  cases env.jsonMarshal events <;>
  · simp only [Header.Add, String.reduceEq, if_false]
    generalize env.clientDo _ = ans
    rcases ans with ⟨⟨_ | b⟩⟩ | e | ⟨⟨_ | b⟩, e⟩ <;>
      simp [DoResult.resp, DoResult.err, requestsOf, requestsOf_append]


theorem flushSend_request_failure {User Any : Type} (env : Env User Any)
    (ep : eventProcessor User Any) (events : List (Event User Any)) (e : String)
    (h : env.newRequestErr "POST" (ep.config.BaseUri ++ "/api/events/bulk") = some e) :
    requestsOf (flushSend env ep events).1 = [] ∧
    (flushSend env ep events).2 = .panicked nilDereference ∧
    Effect.log ("Unexpected error while creating event request: " ++ e) ∈
      (flushSend env ep events).1 := by
  simp only [flushSend, httpNewRequest, h]
  cases env.jsonMarshal events <;> simp [requestsOf]

theorem flushSend_transport_failure {User Any : Type} (env : Env User Any)
    (ep : eventProcessor User Any) (events : List (Event User Any))
    (h : env.newRequestErr "POST" (ep.config.BaseUri ++ "/api/events/bulk") = none)
    (hdo : ∀ req, ∃ e, env.clientDo req = .failure e) :
    (flushSend env ep events).2 = .panicked nilDereference := by
  simp only [flushSend, httpNewRequest, h]
  generalize hreq : Request.mk _ _ _ _ = req
  obtain ⟨e, he⟩ := hdo req
  simp [he, DoResult.resp]

theorem flushSend_marshal_log {User Any : Type} (env : Env User Any)
    (ep : eventProcessor User Any) (events : List (Event User Any)) (e : String)
    (hm : env.jsonMarshal events = .error e) :
    Effect.log ("Unexpected error marshalling event json: " ++ e) ∈
      (flushSend env ep events).1 := by
  simp only [flushSend, hm]
  split
  · simp
  · split
    · simp
    · rename_i resp _
      cases resp.Body <;> simp

theorem sendAll_of_room {User Any : Type} (es : List (Event User Any)) :
    ∀ ep : eventProcessor User Any,
      ((ep.queue.length + es.length : Nat) : Int) ≤ ep.config.Capacity →
      sendAll ep es = ({ ep with queue := ep.queue ++ es }, List.replicate es.length none) := by
  induction es with
  | nil => intro ep _; simp [sendAll]
  | cons evt rest ih =>
    intro ep h
    have hlt : ¬ ((ep.queue.length : Int) ≥ ep.config.Capacity) := by
      simp only [List.length_cons] at h
      push_cast at h
      omega
    have hs : sendEvent ep evt = ({ ep with queue := ep.queue ++ [evt] }, none) := by
      simp [sendEvent, hlt]
    have h2 : (((sendEvent ep evt).1.queue.length + rest.length : Nat) : Int) ≤
        (sendEvent ep evt).1.config.Capacity := by
      rw [hs]
      simp only [List.length_cons, List.length_append, List.length_nil] at h ⊢
      push_cast at h ⊢
      omega
    simp only [sendAll, ih _ h2]
    rw [hs]
    simp [List.replicate_succ]

theorem close_closer {User Any : Type} (env : Env User Any) (ep : eventProcessor User Any) :
    (close env ep).ep.closer = true := by
  unfold close
  by_cases h : ep.closer = true
  · simp [h]
  · simp only [h]
    exact (flush_fields env _).2.2

theorem close_of_open {User Any : Type} (env : Env User Any) (ep : eventProcessor User Any)
    (h : ep.closer = false) : close env ep = flush env { ep with closer := true } := by
  simp [close, h]

theorem apply_config {User Any : Type} (ep : eventProcessor User Any) (c : Call User Any) :
    (c.apply ep).config = ep.config := by
  cases c with
  | sendEvent evt =>
    simp only [Call.apply, sendEvent]
    split <;> rfl
  | flush env => exact (flush_fields env ep).1
  | close env =>
    simp only [Call.apply, close]
    split
    · rfl
    · exact (flush_fields env _).1

theorem apply_length {User Any : Type} (ep : eventProcessor User Any) (c : Call User Any)
    (h0 : 0 ≤ ep.config.Capacity) (h : (ep.queue.length : Int) ≤ ep.config.Capacity) :
    ((c.apply ep).queue.length : Int) ≤ ep.config.Capacity := by
  cases c with
  | sendEvent evt =>
    simp only [Call.apply, sendEvent]
    split
    · exact h
    · simp only [List.length_append, List.length_cons, List.length_nil]
      push_cast
      omega
  | flush env =>
    simp only [Call.apply, flush_queue]
    simpa using h0
  | close env =>
    simp only [Call.apply, close]
    split
    · exact h
    · simp only [flush_queue]
      simpa using h0

theorem runCalls_invariant {User Any : Type} (calls : List (Call User Any)) :
    ∀ ep : eventProcessor User Any, 0 ≤ ep.config.Capacity →
      (ep.queue.length : Int) ≤ ep.config.Capacity →
      (runCalls ep calls).config = ep.config ∧
      ((runCalls ep calls).queue.length : Int) ≤ ep.config.Capacity := by
  induction calls with
  | nil => intro ep _ h; exact ⟨rfl, h⟩
  | cons c rest ih =>
    intro ep h0 h
    have hc := apply_config ep c
    have hl := apply_length ep c h0 h
    have := ih (c.apply ep) (by rw [hc]; exact h0) (by rw [hc]; exact hl)
    simp only [runCalls, List.foldl_cons] at this ⊢
    rw [hc] at this
    exact this

/-! Submission followed by flush -/

/-- C3, as stated, fails for the empty list of submissions: on a fresh
processor of capacity 2 with nothing submitted, `flush` returns at once and
issues no request, so it does not issue exactly one. -/
theorem flush_fresh_issues_no_request :
    (([] : List (Event Nat Nat)).length : Int) ≤ config2.Capacity ∧
    requestsOf (flush envOk (sendAll (newEventProcessor "key" config2) []).1).trace = [] ∧
    ¬ ∃ req, requestsOf (flush envOk (sendAll (newEventProcessor "key" config2) []).1).trace
      = [req] := by
  refine ⟨by decide, by decide, ?_⟩
  rintro ⟨req, h⟩
  have h0 : requestsOf (flush envOk (sendAll (newEventProcessor "key" config2) []).1).trace
      = [] := by decide
  rw [h0] at h
  exact List.noConfusion h

/-- C3, amended: for a non-empty list of at most `config.Capacity` events
submitted to a fresh processor, every `sendEvent` returns `nil` and the queue
is the list in submission order; when `json.Marshal` yields `body` for that
list and `http.NewRequest` accepts the URL, `flush` issues exactly one
request, with body `body`, and a second `flush` right after it issues no
request and has no other effect. -/
theorem flush_sends_submitted_once {User Any : Type} (env env2 : Env User Any)
    (apiKey : String) (config : Config) (es : List (Event User Any)) (body : Bytes)
    (hne : es ≠ []) (hcap : (es.length : Int) ≤ config.Capacity)
    (hm : env.jsonMarshal es = .ok body)
    (hr : env.newRequestErr "POST" (config.BaseUri ++ "/api/events/bulk") = none) :
    (sendAll (newEventProcessor apiKey config) es).2 = List.replicate es.length none ∧
    (sendAll (newEventProcessor apiKey config) es).1.queue = es ∧
    (∃ req, requestsOf (flush env (sendAll (newEventProcessor apiKey config) es).1).trace
        = [req] ∧ req.Body = body) ∧
    (flush env2 (flush env (sendAll (newEventProcessor apiKey config) es).1).ep).trace
      = [] := by
  have hs := sendAll_of_room es (newEventProcessor apiKey config)
    (by simpa [newEventProcessor] using hcap)
  rw [hs]
  refine ⟨rfl, by simp [newEventProcessor], ?_, ?_⟩
  · have hq : ({ (newEventProcessor apiKey config : eventProcessor User Any) with
        queue := (newEventProcessor apiKey config : eventProcessor User Any).queue ++ es }
        : eventProcessor User Any).queue ≠ [] := by
      simpa [newEventProcessor] using hne
    rw [flush_of_ne env _ hq]
    refine ⟨_, flushSend_requests env _ _ (by simpa [flushReset, newEventProcessor] using hr), ?_⟩
    simp [newEventProcessor, hm]
  · rw [flush_of_nil env2 _ (flush_queue env _)]

/-- Witness of C3: capacity 2, `E1` then `E2` submitted; both are accepted,
one request with the serialisation of `[E1, E2]` is issued, and a second flush
issues nothing. -/
theorem flush_sends_submitted_once_witness :
    (sendAll (newEventProcessor "key" config2) [E1, E2]).2 = List.replicate 2 none ∧
    (sendAll (newEventProcessor "key" config2) [E1, E2]).1.queue = [E1, E2] ∧
    (∃ req, requestsOf (flush envOk (sendAll (newEventProcessor "key" config2) [E1, E2]).1).trace
        = [req] ∧ req.Body = toyMarshal [E1, E2]) ∧
    (flush envOk (flush envOk (sendAll (newEventProcessor "key" config2) [E1, E2]).1).ep).trace
      = [] :=
  flush_sends_submitted_once envOk envOk "key" config2 [E1, E2] (toyMarshal [E1, E2])
    (by decide) (by decide) rfl (by decide)

/-! The capacity invariant -/

/-- C4: for a processor made by `newEventProcessor` with a capacity of at
least 0, after any finite sequence of `sendEvent`, `flush` and `close` calls
(each `flush` and `close` in any environment, panicking or not) the queue
holds at most `config.Capacity` events. -/
theorem queue_length_le_capacity {User Any : Type} (apiKey : String) (config : Config)
    (calls : List (Call User Any)) (h0 : 0 ≤ config.Capacity) :
    ((runCalls (newEventProcessor apiKey config) calls).queue.length : Int) ≤
      (runCalls (newEventProcessor apiKey config) calls).config.Capacity := by
  have h := runCalls_invariant calls (newEventProcessor apiKey config)
    (by simpa [newEventProcessor] using h0) (by simpa [newEventProcessor] using h0)
  rw [h.1]
  exact h.2

/-- Witness of C4: capacity 2; three submissions, a flush, a submission, two
closes. -/
theorem queue_length_le_capacity_witness :
    ((runCalls (newEventProcessor "key" config2)
        [.sendEvent E1, .sendEvent E2, .sendEvent E3, .flush envOk, .sendEvent E3,
         .close envTransportFails, .close envOk]).queue.length : Int) ≤
      (runCalls (newEventProcessor "key" config2)
        [.sendEvent E1, .sendEvent E2, .sendEvent E3, .flush envOk, .sendEvent E3,
         .close envTransportFails, .close envOk]).config.Capacity :=
  queue_length_le_capacity "key" config2
    [.sendEvent E1, .sendEvent E2, .sendEvent E3, .flush envOk, .sendEvent E3,
     .close envTransportFails, .close envOk] (by decide)

/-! `flush` -/

/-- C5: after `flush` the queue is empty, whatever the environment and however
the call ends; and on an empty queue `flush` returns with no effect at all (no
request, no log) and the processor unchanged. -/
theorem flush_empties_queue {User Any : Type} (env : Env User Any)
    (ep : eventProcessor User Any) :
    (flush env ep).ep.queue = [] ∧
    (ep.queue = [] →
      (flush env ep).ep = ep ∧ (flush env ep).trace = [] ∧
      requestsOf (flush env ep).trace = [] ∧ (flush env ep).outcome = .returned) := by
  refine ⟨flush_queue env ep, fun h => ?_⟩
  rw [flush_of_nil env ep h]
  exact ⟨rfl, rfl, rfl, rfl⟩

/-- Witness of C5: a full queue is empty after `flush`, and `flush` on the
fresh processor does nothing. -/
theorem flush_empties_queue_witness :
    (flush envOk epFull).ep.queue = [] ∧
    ((flush envOk (newEventProcessor "key" config2)).ep = newEventProcessor "key" config2 ∧
     (flush envOk (newEventProcessor "key" config2)).trace = [] ∧
     requestsOf (flush envOk (newEventProcessor "key" config2)).trace = [] ∧
     (flush envOk (newEventProcessor "key" config2)).outcome = .returned) :=
  ⟨(flush_empties_queue envOk epFull).1,
   (flush_empties_queue envOk (newEventProcessor "key" config2)).2 rfl⟩

/-- C6 fails on the code: with a non-empty queue, when `http.NewRequest`
returns `(nil, err)` the error is logged and `flush` then panics on
`req.Header` without issuing a request; and when `client.Do` returns
`(nil, err)` for every request, `flush` panics on `resp.Body`. -/
theorem flush_panics_on_request_or_transport_failure {User Any : Type} (env : Env User Any)
    (ep : eventProcessor User Any) (hq : ep.queue ≠ []) :
    (∀ e, env.newRequestErr "POST" (ep.config.BaseUri ++ "/api/events/bulk") = some e →
      (flush env ep).outcome = .panicked nilDereference ∧
      requestsOf (flush env ep).trace = [] ∧
      Effect.log ("Unexpected error while creating event request: " ++ e) ∈
        (flush env ep).trace) ∧
    (env.newRequestErr "POST" (ep.config.BaseUri ++ "/api/events/bulk") = none →
      (∀ req, ∃ e, env.clientDo req = .failure e) →
      (flush env ep).outcome = .panicked nilDereference) := by
  rw [flush_of_ne env ep hq]
  refine ⟨fun e h => ?_, fun h hdo => ?_⟩
  · have := flushSend_request_failure env (flushReset ep) ep.queue e h
    exact ⟨this.2.1, this.1, this.2.2⟩
  · exact flushSend_transport_failure env (flushReset ep) ep.queue h hdo

/-- C6 at the failing inputs: a base URI without scheme makes `flush` log the
construction error and panic; a refused connection makes `flush` panic after
the request was issued. -/
theorem flush_panics_on_request_or_transport_failure_witness :
    ((flush envOk epBadUri).outcome = .panicked nilDereference ∧
      requestsOf (flush envOk epBadUri).trace = [] ∧
      Effect.log ("Unexpected error while creating event request: " ++
        "missing protocol scheme") ∈ (flush envOk epBadUri).trace) ∧
    (flush envTransportFails epFull).outcome = .panicked nilDereference :=
  ⟨(flush_panics_on_request_or_transport_failure envOk epBadUri (by decide)).1
      "missing protocol scheme" (by decide),
   (flush_panics_on_request_or_transport_failure envTransportFails epFull (by decide)).2
      (by decide) (fun _ => ⟨"connection refused", rfl⟩)⟩

/-- C7 fails on the code: with a non-empty queue, when `json.Marshal` returns
an error (and `http.NewRequest` accepts the URL) `flush` logs the error and
goes on: it issues one request, with an empty body. The queue is left empty. -/
theorem flush_sends_empty_body_on_marshal_failure {User Any : Type} (env : Env User Any)
    (ep : eventProcessor User Any) (e : String) (hq : ep.queue ≠ [])
    (hm : env.jsonMarshal ep.queue = .error e)
    (hr : env.newRequestErr "POST" (ep.config.BaseUri ++ "/api/events/bulk") = none) :
    Effect.log ("Unexpected error marshalling event json: " ++ e) ∈ (flush env ep).trace ∧
    requestsOf (flush env ep).trace =
      [{ Method := "POST", URL := ep.config.BaseUri ++ "/api/events/bulk",
         Header := [("Authorization", ["api_key " ++ ep.apiKey]),
                    ("Content-Type", ["application/json"]),
                    ("User-Agent", ["GoClient/" ++ env.Version])],
         Body := [] }] ∧
    (flush env ep).ep.queue = [] := by
  rw [flush_of_ne env ep hq]
  refine ⟨flushSend_marshal_log env _ _ e hm, ?_, rfl⟩
  have := flushSend_requests env (flushReset ep) ep.queue hr
  simp only [hm] at this
  exact this

/-- C7 at the failing input: the queue `[E1, E2]` with a failing
`json.Marshal`. -/
theorem flush_sends_empty_body_on_marshal_failure_witness :
    Effect.log ("Unexpected error marshalling event json: " ++ "json: unsupported type") ∈
      (flush envMarshalFails epFull).trace ∧
    requestsOf (flush envMarshalFails epFull).trace =
      [{ Method := "POST", URL := epFull.config.BaseUri ++ "/api/events/bulk",
         Header := [("Authorization", ["api_key " ++ epFull.apiKey]),
                    ("Content-Type", ["application/json"]),
                    ("User-Agent", ["GoClient/" ++ envMarshalFails.Version])],
         Body := [] }] ∧
    (flush envMarshalFails epFull).ep.queue = [] :=
  flush_sends_empty_body_on_marshal_failure envMarshalFails epFull "json: unsupported type"
    (by decide) rfl (by decide)

/-- C8: with a non-empty queue, every request `flush` issues has method POST,
the URL `BaseUri` followed by `/api/events/bulk`, and exactly the three headers
`Authorization`, `Content-Type` and `User-Agent`, each with the single value
given; and when `http.NewRequest` accepts the URL, exactly one such request is
issued. -/
theorem flush_request_shape {User Any : Type} (env : Env User Any)
    (ep : eventProcessor User Any) (hq : ep.queue ≠ []) :
    (∀ req ∈ requestsOf (flush env ep).trace,
      req.Method = "POST" ∧ req.URL = ep.config.BaseUri ++ "/api/events/bulk" ∧
      req.Header = [("Authorization", ["api_key " ++ ep.apiKey]),
                    ("Content-Type", ["application/json"]),
                    ("User-Agent", ["GoClient/" ++ env.Version])]) ∧
    (env.newRequestErr "POST" (ep.config.BaseUri ++ "/api/events/bulk") = none →
      ∃ req, requestsOf (flush env ep).trace = [req]) := by
  rw [flush_of_ne env ep hq]
  cases hr : env.newRequestErr "POST" (ep.config.BaseUri ++ "/api/events/bulk") with
  | none =>
    have h := flushSend_requests env (flushReset ep) ep.queue hr
    simp only [h]
    refine ⟨fun req hreq => ?_, fun _ => ⟨_, rfl⟩⟩
    rw [List.mem_singleton] at hreq
    subst hreq
    exact ⟨rfl, rfl, rfl⟩
  | some e =>
    have h := (flushSend_request_failure env (flushReset ep) ep.queue e hr).1
    simp only [h]
    exact ⟨fun req hreq => absurd hreq (List.not_mem_nil req), fun hn => by simp at hn⟩

/-- Witness of C8: the request issued for the queue `[E1, E2]`. -/
theorem flush_request_shape_witness :
    (∀ req ∈ requestsOf (flush envOk epFull).trace,
      req.Method = "POST" ∧ req.URL = epFull.config.BaseUri ++ "/api/events/bulk" ∧
      req.Header = [("Authorization", ["api_key " ++ epFull.apiKey]),
                    ("Content-Type", ["application/json"]),
                    ("User-Agent", ["GoClient/" ++ envOk.Version])]) ∧
    ∃ req, requestsOf (flush envOk epFull).trace = [req] :=
  ⟨(flush_request_shape envOk epFull (by decide)).1,
   (flush_request_shape envOk epFull (by decide)).2 (by decide)⟩

/-! `close` -/

/-- What `close` does on an open processor when the library calls succeed: it
closes `closer` and runs `flush` once. The queue is empty afterwards. On an
empty queue it issues no request and has no other effect. On a non-empty
queue, when `json.Marshal` yields `body` for the queue and `http.NewRequest`
accepts the URL, it issues exactly one request, whose body is `body`, the
serialisation of the whole queue in queue order. -/
theorem close_flushes_once {User Any : Type} (env : Env User Any)
    (ep : eventProcessor User Any) (hopen : ep.closer = false) :
    close env ep = flush env { ep with closer := true } ∧
    (close env ep).ep.queue = [] ∧
    (ep.queue = [] → (close env ep).trace = [] ∧ (close env ep).outcome = .returned) ∧
    (∀ body, ep.queue ≠ [] → env.jsonMarshal ep.queue = .ok body →
      env.newRequestErr "POST" (ep.config.BaseUri ++ "/api/events/bulk") = none →
      ∃ req, requestsOf (close env ep).trace = [req] ∧ req.Body = body) := by
  rw [close_of_open env ep hopen]
  refine ⟨rfl, flush_queue env _, fun h => ?_, fun body hq hm hr => ?_⟩
  · rw [flush_of_nil env _ (by simpa using h)]
    exact ⟨rfl, rfl⟩
  · rw [flush_of_ne env _ (by simpa using hq)]
    refine ⟨_, flushSend_requests env _ _ (by simpa [flushReset] using hr), ?_⟩
    simp [hm]

/-- The success path of `close` on concrete data: on the open processor
holding `[E1, E2]` it issues one request with the serialisation of `[E1, E2]`;
on the fresh processor it issues nothing. -/
theorem close_flushes_once_witness :
    (close envOk epFull).ep.queue = [] ∧
    (∃ req, requestsOf (close envOk epFull).trace = [req] ∧ req.Body = toyMarshal [E1, E2]) ∧
    ((close envOk (newEventProcessor "key" config2)).trace = [] ∧
     (close envOk (newEventProcessor "key" config2)).outcome = .returned) :=
  ⟨(close_flushes_once envOk epFull rfl).2.1,
   (close_flushes_once envOk epFull rfl).2.2.2 (toyMarshal [E1, E2]) (by decide) rfl
     (by decide),
   (close_flushes_once envOk (newEventProcessor "key" config2) rfl).2.2.1 rfl⟩

/-- C9 fails on the code: on an open processor holding events, the final flush
of `close` does not always issue one request carrying them. When
`http.NewRequest` returns `(nil, err)`, `close` issues no request, panics on
`req.Header`, and the events are gone from the queue. When `json.Marshal`
returns an error (and `http.NewRequest` accepts the URL), `close` issues one
request whose body is empty, so it carries none of the events. -/
theorem close_final_flush_fails_on_library_error {User Any : Type} (env : Env User Any)
    (ep : eventProcessor User Any) (hopen : ep.closer = false) (hq : ep.queue ≠ []) :
    (∀ e, env.newRequestErr "POST" (ep.config.BaseUri ++ "/api/events/bulk") = some e →
      requestsOf (close env ep).trace = [] ∧
      (close env ep).outcome = .panicked nilDereference ∧
      (close env ep).ep.queue = []) ∧
    (∀ e, env.jsonMarshal ep.queue = .error e →
      env.newRequestErr "POST" (ep.config.BaseUri ++ "/api/events/bulk") = none →
      (∃ req, requestsOf (close env ep).trace = [req] ∧ req.Body = []) ∧
      (close env ep).ep.queue = []) := by
  rw [close_of_open env ep hopen]
  rw [flush_of_ne env _ (by simpa using hq)]
  refine ⟨fun e h => ?_, fun e hm hr => ?_⟩
  · have hf := flushSend_request_failure env (flushReset { ep with closer := true })
      ep.queue e (by simpa [flushReset] using h)
    exact ⟨hf.1, hf.2.1, rfl⟩
  · have hf := flushSend_requests env (flushReset { ep with closer := true }) ep.queue
      (by simpa [flushReset] using hr)
    refine ⟨⟨_, hf, ?_⟩, rfl⟩
    simp [hm]

/-- C9 at the failing inputs: `close` on the open processor holding `E1` whose
base URI has no protocol scheme issues no request and panics, with `E1` gone;
`close` on the open processor holding `[E1, E2]` with a failing `json.Marshal`
issues one request with an empty body. -/
theorem close_final_flush_fails_on_library_error_witness :
    (requestsOf (close envOk epBadUri).trace = [] ∧
      (close envOk epBadUri).outcome = .panicked nilDereference ∧
      (close envOk epBadUri).ep.queue = []) ∧
    ((∃ req, requestsOf (close envMarshalFails epFull).trace = [req] ∧ req.Body = []) ∧
      (close envMarshalFails epFull).ep.queue = []) :=
  ⟨(close_final_flush_fails_on_library_error envOk epBadUri rfl (by decide)).1
      "missing protocol scheme" (by decide),
   (close_final_flush_fails_on_library_error envMarshalFails epFull rfl (by decide)).2
      "json: unsupported type" rfl (by decide)⟩

/-- C10, as stated, fails: after `close` on the processor holding `[E1, E2]`,
a second `close` does not return; it panics with Go's error for closing a
closed channel. -/
theorem close_twice_panics :
    (close envOk (close envOk epFull).ep).outcome = .panicked closeOfClosedChannel ∧
    (close envOk (close envOk epFull).ep).outcome ≠ .returned := by
  decide

/-- C10, amended: a second `close` panics with Go's error for closing a
closed channel, before any flush: it issues no request, has no other effect,
and leaves the processor as the first `close` left it. -/
theorem close_twice_panics_unchanged {User Any : Type} (env env2 : Env User Any)
    (ep : eventProcessor User Any) :
    close env2 (close env ep).ep =
      { ep := (close env ep).ep, trace := [], outcome := .panicked closeOfClosedChannel } := by
  have h := close_closer env ep
  generalize (close env ep).ep = s at h
  simp [close, h]

/-! Interleaved runs -/

/-- C11 fails on the code: the queue is read under the mutex but reset after
the unlock. When a `flush` has read a non-empty queue and a `sendEvent` runs
before line 90, with room in the queue, `sendEvent` returns `nil`, and the
reset then empties the queue: the only batch is the queue as it was read, so
the accepted event is in no batch and no longer in the queue. -/
theorem flush_loses_event_sent_before_reset {User Any : Type} (ep : eventProcessor User Any)
    (evt : Event User Any) (hq : ep.queue ≠ [])
    (hroom : (ep.queue.length : Int) < ep.config.Capacity) :
    (sendEvent ep evt).2 = none ∧
    runActions (Interleaved.start ep) [.flushLocked, .sendEvent evt, .flushUnlocked] =
      { ep := { ep with queue := [] }, events := none, batches := [ep.queue],
        accepted := [evt] } := by
  have hlt : ¬ ((ep.queue.length : Int) ≥ ep.config.Capacity) := not_le.mpr hroom
  have hlen : ¬ (ep.queue.length = 0) := fun h => hq (List.length_eq_zero.mp h)
  refine ⟨by simp [sendEvent, hlt], ?_⟩
  simp [runActions, Action.step, Interleaved.start, flushRead, flushReset, sendEvent, hlt, hlen]

/-- C11 at the failing schedule: capacity 2, the queue holds `E1`; `flush`
reads it, `E2` is submitted and accepted, `flush` resets the queue. The run
from the fresh processor ends the same way: both events accepted, one batch
`[E1]`, an empty queue, and `E2` in no batch. -/
theorem flush_loses_event_sent_before_reset_witness :
    ((sendEvent ({ epFull with queue := [E1] }) E2).2 = none ∧
      runActions (Interleaved.start ({ epFull with queue := [E1] }))
          [.flushLocked, .sendEvent E2, .flushUnlocked] =
        { ep := { ({ epFull with queue := [E1] } : eventProcessor Nat Nat) with queue := [] },
          events := none, batches := [[E1]], accepted := [E2] }) ∧
    runActions (Interleaved.start (newEventProcessor "key" config2))
        [.sendEvent E1, .flushLocked, .sendEvent E2, .flushUnlocked, .flushLocked,
         .flushUnlocked] =
      { ep := newEventProcessor "key" config2, events := none, batches := [[E1]],
        accepted := [E1, E2] } ∧
    ∀ b ∈ [[E1]], E2 ∉ b :=
  ⟨flush_loses_event_sent_before_reset ({ epFull with queue := [E1] }) E2 (by decide)
     (by decide),
   by decide, by decide⟩

/-! Event constructors -/

/-- C12: `newFeatureRequestEvent` returns an event with the given key, user
and value and kind `feature`; `newCustomEvent` one with the given key, user and
data and kind `custom`. For both, `GetKind` returns that kind and `GetBase` the
base record with those fields, also when called through the `Event`
interface. -/
theorem event_constructors_fields {User Any : Type} (clock : Int) (key : String)
    (user : User) (payload : Any) :
    ((newFeatureRequestEvent clock key user payload).base.Key = key ∧
      (newFeatureRequestEvent clock key user payload).base.User = user ∧
      (newFeatureRequestEvent clock key user payload).Value = payload ∧
      (newFeatureRequestEvent clock key user payload).base.Kind = "feature" ∧
      (newFeatureRequestEvent clock key user payload).GetKind = "feature" ∧
      (newFeatureRequestEvent clock key user payload).GetBase =
        { CreationDate := now clock, Key := key, Kind := "feature", User := user } ∧
      (Event.feature (newFeatureRequestEvent clock key user payload)).GetKind = "feature" ∧
      (Event.feature (newFeatureRequestEvent clock key user payload)).GetBase =
        { CreationDate := now clock, Key := key, Kind := "feature", User := user }) ∧
    ((newCustomEvent clock key user payload).base.Key = key ∧
      (newCustomEvent clock key user payload).base.User = user ∧
      (newCustomEvent clock key user payload).Data = payload ∧
      (newCustomEvent clock key user payload).base.Kind = "custom" ∧
      (newCustomEvent clock key user payload).GetKind = "custom" ∧
      (newCustomEvent clock key user payload).GetBase =
        { CreationDate := now clock, Key := key, Kind := "custom", User := user } ∧
      (Event.custom (newCustomEvent clock key user payload)).GetKind = "custom" ∧
      (Event.custom (newCustomEvent clock key user payload)).GetBase =
        { CreationDate := now clock, Key := key, Kind := "custom", User := user }) := by
  refine ⟨⟨rfl, rfl, rfl, rfl, rfl, rfl, rfl, rfl⟩, ⟨rfl, rfl, rfl, rfl, rfl, rfl, rfl, rfl⟩⟩

/-! The JSON form of a batch -/

theorem marshalEvent_shape {User Any : Type} (encUser : User → Except String JSON)
    (encAny : Any → Except String JSON) (e : Event User Any) (o : JSON)
    (h : marshalEvent encUser encAny e = .ok o) :
    ∃ u p, encUser e.GetBase.User = .ok u ∧ encAny e.payload = .ok p ∧
      o = .object [("creationDate", .number (e.GetBase.CreationDate : Int)),
                   ("key", .string e.GetBase.Key), ("kind", .string e.GetBase.Kind),
                   ("user", u), (e.payloadKey, p)] := by
  cases e with
  | feature f =>
    simp only [marshalEvent, Event.members, FeatureRequestEvent.members, marshalMembers,
      BaseEvent.fields, marshalFields, marshalValue, GoField.key] at h
    cases hu : encUser f.base.User with
    | error err => simp [hu] at h
    | ok u =>
      cases hp : encAny f.Value with
      | error err => simp [hu, hp] at h
      | ok p =>
        simp only [hu, hp, List.cons_append, List.nil_append, Except.ok.injEq] at h
        exact ⟨u, p, hu, hp, h.symm⟩
  | custom c =>
    simp only [marshalEvent, Event.members, CustomEvent.members, marshalMembers,
      BaseEvent.fields, marshalFields, marshalValue, GoField.key] at h
    cases hu : encUser c.base.User with
    | error err => simp [hu] at h
    | ok u =>
      cases hp : encAny c.Data with
      | error err => simp [hu, hp] at h
      | ok p =>
        simp only [hu, hp, List.cons_append, List.nil_append, Except.ok.injEq] at h
        exact ⟨u, p, hu, hp, h.symm⟩

theorem marshalEach_shape {User Any : Type} (encUser : User → Except String JSON)
    (encAny : Any → Except String JSON) (es : List (Event User Any)) :
    ∀ os, marshalEach encUser encAny es = .ok os →
      List.Forall₂ (fun e o => marshalEvent encUser encAny e = .ok o) es os := by
  induction es with
  | nil =>
    intro os h
    simp only [marshalEach, Except.ok.injEq] at h
    subst h
    exact List.Forall₂.nil
  | cons e rest ih =>
    intro os h
    simp only [marshalEach] at h
    cases ho : marshalEvent encUser encAny e with
    | error err => simp [ho] at h
    | ok o =>
      cases hr : marshalEach encUser encAny rest with
      | error err => simp [ho, hr] at h
      | ok more =>
        simp only [ho, hr, Except.ok.injEq] at h
        subst h
        exact List.Forall₂.cons ho (ih more hr)

/-- C13: when the batch serialises to `doc`, `doc` is an array with one object
per event of the queue, in queue order, and the object of an event has exactly
the members `creationDate` (the integer `CreationDate`), `key`, `kind`, `user`
and then `value` for a feature event or `data` for a custom event, all at the
top level of the object. With a `json.Marshal` that writes this document out,
the one request `flush` issues has it as its body. -/
theorem request_body_is_array_of_flat_objects {User Any : Type} (env : Env User Any)
    (encUser : User → Except String JSON) (encAny : Any → Except String JSON)
    (render : JSON → Bytes) (ep : eventProcessor User Any) (doc : JSON)
    (henv : env.jsonMarshal = jsonMarshalWith encUser encAny render)
    (hq : ep.queue ≠ [])
    (hr : env.newRequestErr "POST" (ep.config.BaseUri ++ "/api/events/bulk") = none)
    (hdoc : marshalEvents encUser encAny ep.queue = .ok doc) :
    (∃ req, requestsOf (flush env ep).trace = [req] ∧ req.Body = render doc) ∧
    ∃ objs, doc = .array objs ∧ objs.length = ep.queue.length ∧
      List.Forall₂ (fun e o => ∃ u p, encUser e.GetBase.User = .ok u ∧
        encAny e.payload = .ok p ∧
        o = .object [("creationDate", .number (e.GetBase.CreationDate : Int)),
                     ("key", .string e.GetBase.Key), ("kind", .string e.GetBase.Kind),
                     ("user", u), (e.payloadKey, p)]) ep.queue objs := by
  constructor
  · rw [flush_of_ne env ep hq]
    refine ⟨_, flushSend_requests env (flushReset ep) ep.queue hr, ?_⟩
    simp [henv, jsonMarshalWith, hdoc]
  · simp only [marshalEvents] at hdoc
    cases hos : marshalEach encUser encAny ep.queue with
    | error err => simp [hos] at hdoc
    | ok os =>
      simp only [hos, Except.ok.injEq] at hdoc
      have hall := marshalEach_shape encUser encAny ep.queue os hos
      refine ⟨os, hdoc.symm, hall.length_eq.symm, ?_⟩
      exact hall.imp (fun {e o} h => marshalEvent_shape encUser encAny e o h)

/-- Witness of C13: the queue holding the feature event `E1` and a custom
event. -/
theorem request_body_is_array_of_flat_objects_witness :
    (∃ req, requestsOf (flush envJson ({ epFull with queue := [E1, sampleCustom "c" 5 6] })).trace
        = [req] ∧
      req.Body = renderCount (.array
        [.object [("creationDate", .number 0), ("key", .string "e1"),
                  ("kind", .string "feature"), ("user", .number 1), ("value", .number 10)],
         .object [("creationDate", .number 0), ("key", .string "c"),
                  ("kind", .string "custom"), ("user", .number 5), ("data", .number 6)]])) ∧
    ∃ objs, JSON.array
        [.object [("creationDate", .number 0), ("key", .string "e1"),
                  ("kind", .string "feature"), ("user", .number 1), ("value", .number 10)],
         .object [("creationDate", .number 0), ("key", .string "c"),
                  ("kind", .string "custom"), ("user", .number 5), ("data", .number 6)]]
        = .array objs ∧
      objs.length = ({ epFull with queue := [E1, sampleCustom "c" 5 6] } :
        eventProcessor Nat Nat).queue.length ∧
      List.Forall₂ (fun e o => ∃ u p,
        (fun (n : Nat) => (Except.ok (JSON.number (n : Int)) : Except String JSON))
          e.GetBase.User = .ok u ∧
        (fun (n : Nat) => (Except.ok (JSON.number (n : Int)) : Except String JSON))
          e.payload = .ok p ∧
        o = .object [("creationDate", .number (e.GetBase.CreationDate : Int)),
                     ("key", .string e.GetBase.Key), ("kind", .string e.GetBase.Kind),
                     ("user", u), (e.payloadKey, p)])
        ({ epFull with queue := [E1, sampleCustom "c" 5 6] } : eventProcessor Nat Nat).queue
        objs :=
  request_body_is_array_of_flat_objects envJson _ _ renderCount
    ({ epFull with queue := [E1, sampleCustom "c" 5 6] }) _ rfl (by decide) (by decide) rfl

/-! The clock -/

theorem toUnixMillis_eq (n : Int) (h0 : 0 ≤ n) (h1 : n < 2 ^ 63) :
    (toUnixMillis n : Int) = n / 1000000 := by
  have hdiv : Int.tdiv n Millisecond = n / 1000000 :=
    Int.tdiv_eq_ediv h0 (by decide)
  have hlo : 0 ≤ n / 1000000 := Int.ediv_nonneg h0 (by decide)
  have hhi : n / 1000000 < 2 ^ 64 := by omega
  simp only [toUnixMillis, hdiv]
  rw [Int.emod_eq_of_lt hlo hhi]
  exact Int.toNat_of_nonneg hlo

/-- C14: for a time at or after the epoch whose `UnixNano()` is `n`, with
`0 <= n < 2^63`, `toUnixMillis` is the integer quotient of `n` by 1,000,000;
it is monotonically non-decreasing on such times; and the `CreationDate` both
event constructors stamp is that quotient for the reading of the clock. -/
theorem toUnixMillis_floor {User Any : Type} (n : Int) (h0 : 0 ≤ n) (h1 : n < 2 ^ 63) :
    (toUnixMillis n : Int) = n / 1000000 ∧
    toUnixMillis n = n.toNat / 1000000 ∧
    (∀ m : Int, n ≤ m → m < 2 ^ 63 → toUnixMillis n ≤ toUnixMillis m) ∧
    (∀ (key : String) (user : User) (payload : Any),
      (newFeatureRequestEvent n key user payload).base.CreationDate = n.toNat / 1000000 ∧
      (newCustomEvent n key user payload).base.CreationDate = n.toNat / 1000000) := by
  have h := toUnixMillis_eq n h0 h1
  have hnat : toUnixMillis n = n.toNat / 1000000 := by omega
  refine ⟨h, hnat, fun m hnm hm => ?_, fun key user payload => ⟨hnat, hnat⟩⟩
  have hm2 := toUnixMillis_eq m (le_trans h0 hnm) hm
  have hle : n / 1000000 ≤ m / 1000000 := Int.ediv_le_ediv (by decide) hnm
  omega

/-- Witness of C14: 1,234,567,890 ns after the epoch is millisecond 1234. -/
theorem toUnixMillis_floor_witness :
    (toUnixMillis 1234567890 : Int) = 1234567890 / 1000000 ∧
    toUnixMillis 1234567890 = (1234567890 : Int).toNat / 1000000 ∧
    (∀ m : Int, 1234567890 ≤ m → m < 2 ^ 63 →
      toUnixMillis 1234567890 ≤ toUnixMillis m) ∧
    (∀ (key : String) (user payload : Nat),
      (newFeatureRequestEvent 1234567890 key user payload).base.CreationDate =
        (1234567890 : Int).toNat / 1000000 ∧
      (newCustomEvent 1234567890 key user payload).base.CreationDate =
        (1234567890 : Int).toNat / 1000000) :=
  @toUnixMillis_floor Nat Nat 1234567890 (by decide) (by decide)

/-! Capacity after a flush, and the fields no call changes -/

/-- C15: after `flush`, in any environment and from any processor state, any
list of at most `config.Capacity` events submitted with `sendEvent` is accepted
in full: every call returns `nil` and the queue is that list. -/
theorem flush_restores_capacity {User Any : Type} (env : Env User Any)
    (ep : eventProcessor User Any) (es : List (Event User Any))
    (h : (es.length : Int) ≤ ep.config.Capacity) :
    (sendAll (flush env ep).ep es).2 = List.replicate es.length none ∧
    (sendAll (flush env ep).ep es).1.queue = es := by
  have hq := flush_queue env ep
  have hc := (flush_fields env ep).1
  have hs := sendAll_of_room es (flush env ep).ep (by rw [hq, hc]; simpa using h)
  rw [hs]
  exact ⟨rfl, by simp [hq]⟩

/-- Witness of C15: the full processor of capacity 2 accepts two more events
after a `flush`, here one whose transport fails. -/
theorem flush_restores_capacity_witness :
    (sendAll (flush envTransportFails epFull).ep [E3, E1]).2 = List.replicate 2 none ∧
    (sendAll (flush envTransportFails epFull).ep [E3, E1]).1.queue = [E3, E1] :=
  flush_restores_capacity envTransportFails epFull [E3, E1] (by decide)

theorem close_fields {User Any : Type} (env : Env User Any) (ep : eventProcessor User Any) :
    (close env ep).ep.config = ep.config ∧ (close env ep).ep.apiKey = ep.apiKey := by
  unfold close
  split
  · exact ⟨rfl, rfl⟩
  · exact ⟨(flush_fields env _).1, (flush_fields env _).2.1⟩

/-- C16: `sendEvent`, `flush` and `close` leave `apiKey` and `config` (with it
`config.Capacity` and `config.BaseUri`) as they were, whatever the environment
and however the call ends; `sendEvent` and `flush` also leave `closer` as it
was. -/
theorem calls_keep_apiKey_and_config {User Any : Type} (env : Env User Any)
    (ep : eventProcessor User Any) (evt : Event User Any) :
    ((sendEvent ep evt).1.apiKey = ep.apiKey ∧ (sendEvent ep evt).1.config = ep.config ∧
      (sendEvent ep evt).1.closer = ep.closer) ∧
    ((flush env ep).ep.apiKey = ep.apiKey ∧ (flush env ep).ep.config = ep.config ∧
      (flush env ep).ep.closer = ep.closer) ∧
    ((close env ep).ep.apiKey = ep.apiKey ∧ (close env ep).ep.config = ep.config) := by
  refine ⟨?_, ?_, ?_⟩
  · unfold sendEvent
    split <;> exact ⟨rfl, rfl, rfl⟩
  · exact ⟨(flush_fields env ep).2.1, (flush_fields env ep).1, (flush_fields env ep).2.2⟩
  · exact ⟨(close_fields env ep).2, (close_fields env ep).1⟩

end ldclient
